import Mathlib

/-!
Verification development for the Custom-Agent-Chatbot repository.

The embedded code comes from three Python sources:
  * `smart_character_selector.py` — intent analysis and responder selection;
  * `conversation_orchestrator.py` — autonomous conversation lifecycle;
  * `maincode.py` — enhanced relevance scoring (`calculate_enhanced_relevance`).

Modelling conventions:
  * Python strings are Lean `String`s; character-level work happens on
    `List Char` (the `.data` of a string).  Lower-casing and the whitespace
    classes are the ASCII fragments of Python's Unicode-aware versions; every
    concrete input in this file is ASCII.
  * Python floats are modelled as exact rationals (`ℚ`).  Every float constant
    in the sources (0.5, 0.6, 0.7, 0.1 …) and every comparison the claims rely
    on involves only sums of tenths compared against integer counts or halves,
    where binary-float evaluation and exact-rational evaluation agree.
  * Calls to the external Groq generation service are modelled by an explicit
    `Option`-valued oracle argument (`none` = service failure / empty choices /
    malformed JSON); timestamps (`datetime.now()`) are dropped because no
    embedded operation reads them back.
  * Python dictionaries used as registries are modelled as functions into
    `Option`; `random.choice xs` is modelled by an extra `Nat` index argument
    `k`, the pick being `xs[k % xs.length]`, so theorems quantify over every
    possible outcome of the random draw.
-/

/-! ### Generic string machinery (Python semantics) -/

/-- Python `\s` / `str.strip()` whitespace, ASCII fragment. -/
def isPySpace (c : Char) : Bool :=
  c == ' ' || c == '\t' || c == '\n' || c == '\r' || c == '\x0b' || c == '\x0c'

/-- Python regex `\w` word character, ASCII fragment. -/
def isWordChar (c : Char) : Bool :=
  c.isAlphanum || c == '_'

/-- Python `str.lower()`, ASCII fragment. -/
def lowerL (cs : List Char) : List Char := cs.map Char.toLower

/-- Python `str.strip()` (no argument): drop whitespace from both ends. -/
def pyStripL (cs : List Char) : List Char :=
  ((cs.dropWhile isPySpace).reverse.dropWhile isPySpace).reverse

/-- Python substring test `needle in hay`. -/
def isSubstrL (needle hay : List Char) : Bool :=
  (List.range (hay.length + 1)).any (fun i => needle.isPrefixOf (hay.drop i))

/-- Python `str.split()` with no argument: split on whitespace runs, no empties. -/
def pyWordsL : List Char → List (List Char)
  | [] => []
  | c :: cs =>
    if isPySpace c then pyWordsL cs
    else
      match pyWordsL cs with
      | [] => [[c]]
      | w :: ws =>
        match cs with
        | [] => [[c]]
        | d :: _ => if isPySpace d then [c] :: w :: ws else (c :: w) :: ws

/-- Python slice `xs[:n]` for an `int` bound `n` (negative bounds count from
the end, clamped at zero). -/
def pyTake (n : Int) (xs : List α) : List α :=
  if 0 ≤ n then xs.take n.toNat else xs.take (xs.length - (-n).toNat)

/-- Python slice `xs[-n:]`: the last `n` elements (the whole list if shorter). -/
def pyLastN (n : Nat) (xs : List α) : List α :=
  xs.drop (xs.length - n)

/-- String-level wrappers. -/
def lowerS (s : String) : List Char := lowerL s.data

def isSubstrS (needle hay : String) : Bool := isSubstrL needle.data hay.data

/-! ### Data model -/

/-- Character profile (duck-typed dict in the source; optional fields model
`character.get(...)`, whose absent key and empty string are both falsy — an
empty description splits into no words, so `some ""` and `none` coincide
behaviourally everywhere below). -/
structure Character where
  name : String
  personality : Option String := none
  speakingStyle : Option String := none
  powersAbilities : Option String := none
deriving DecidableEq, Repr

/-- Embedded `character_database`: mapping from character id to profile. -/
def CharacterDB := List (String × Character)

/-- Dictionary lookup `character_database.get(char_id)` /
`char_id in character_database`. -/
def dbLookup (db : CharacterDB) (cid : String) : Option Character :=
  (db.find? (fun p => p.1 == cid)).map (·.2)

/-! ### `smart_character_selector.py` — greeting grammar

`is_greeting_message` matches the trimmed lower-cased message against three
anchored regexes:
  `^(hi|hello|hey|greetings?)(?:\s+(?:everyone|all|guys|team))?[!.]?$`
  `^good\s+(morning|afternoon|evening|day)(?:\s+(?:everyone|all))?[!.]?$`
  `^what\'?s\s+up(?:\s+(?:everyone|all|guys))?[!.]?$`
Membership in each regex's language is decided by explicit decomposition:
a string matches iff it decomposes as the grammar prescribes (`\s+` becomes an
existential over the run length, alternations become `List.any`). -/

/-- Apostrophe character (codepoint 39). -/
def apos : Char := Char.ofNat 39

/-- Optional terminal `[!.]?$`. -/
def optPunctEnd (cs : List Char) : Bool :=
  cs == [] || cs == ['!'] || cs == ['.']

/-- Tail of a greeting pattern: `(?:\s+(?:g₁|…|gₙ))?[!.]?$` applied to the
rest of the message after the leading greeting words. -/
def greetTailOk (groupWords : List (List Char)) (r : List Char) : Bool :=
  optPunctEnd r ||
  (List.range (r.length + 1)).any (fun k =>
    decide (1 ≤ k) && ((r.take k).all isPySpace) && decide (k ≤ r.length) &&
    groupWords.any (fun w =>
      w.isPrefixOf (r.drop k) && optPunctEnd (r.drop (k + w.length))))

/-- One-or-more whitespace then a word from `ws`, handing the rest to `next`. -/
def wsThenWord (ws : List (List Char)) (next : List Char → Bool) (r : List Char) : Bool :=
  (List.range (r.length + 1)).any (fun k =>
    decide (1 ≤ k) && ((r.take k).all isPySpace) && decide (k ≤ r.length) &&
    ws.any (fun w => w.isPrefixOf (r.drop k) && next (r.drop (k + w.length))))

/-- First greeting regex: `hi|hello|hey|greetings?` + optional group word. -/
def greetPat1 (cs : List Char) : Bool :=
  ["hi", "hello", "hey", "greeting", "greetings"].any (fun g =>
    g.data.isPrefixOf cs &&
    greetTailOk ["everyone".data, "all".data, "guys".data, "team".data]
      (cs.drop g.length))

/-- Second greeting regex: `good\s+(morning|afternoon|evening|day)` + optional
group word. -/
def greetPat2 (cs : List Char) : Bool :=
  "good".data.isPrefixOf cs &&
  wsThenWord ["morning".data, "afternoon".data, "evening".data, "day".data]
    (greetTailOk ["everyone".data, "all".data]) (cs.drop 4)

/-- Leading `what\'?s` of the third regex: returns the rest on success. -/
def afterWhats (cs : List Char) : Option (List Char) :=
  if "whats".data.isPrefixOf cs then some (cs.drop 5)
  else if ("what".data ++ [apos] ++ "s".data).isPrefixOf cs then some (cs.drop 6)
  else none

/-- Third greeting regex: `what\'?s\s+up` + optional group word. -/
def greetPat3 (cs : List Char) : Bool :=
  match afterWhats cs with
  | none => false
  | some r =>
    wsThenWord ["up".data]
      (greetTailOk ["everyone".data, "all".data, "guys".data]) r

/-- Embedded `is_greeting_message(message_lower)`: any of the three anchored patterns
matches the whole (already trimmed, lower-cased) message. -/
def isGreetingMessage (cs : List Char) : Bool :=
  greetPat1 cs || greetPat2 cs || greetPat3 cs

/-! ### `smart_character_selector.py` — mention detection

`detect_character_mentions` checks, per candidate, five rules against the
lower-cased (not trimmed) message; a character is mentioned iff any rule
fires.  Rules 3–5 are `re.search` patterns; `\b` is the word/non-word
transition (string edges count as non-word). -/

/-- Is the character at index `i` (if any) a word character? -/
def wordAt (msg : List Char) (i : Nat) : Bool :=
  match msg.drop i with
  | c :: _ => isWordChar c
  | [] => false

/-- Regex `\b` at position `i` of `msg`. -/
def boundaryAt (msg : List Char) (i : Nat) : Bool :=
  match i with
  | 0 => wordAt msg 0
  | j + 1 => wordAt msg (j + 1) != wordAt msg j

/-- One-or-more whitespace starting at `j`, then the literal `lit`, handing the
position after `lit` to `next` (existential over the run length = regex
backtracking on `\s+`). -/
def wsThenLitAt (msg lit : List Char) (j : Nat) (next : Nat → Bool) : Bool :=
  (List.range (msg.length + 1)).any (fun k =>
    decide (1 ≤ k) && decide (j + k ≤ msg.length) &&
    ((msg.drop j).take k).all isPySpace &&
    lit.isPrefixOf (msg.drop (j + k)) && next (j + k + lit.length))

/-- Rule 3: `re.search(r'\b(hey|hi|hello)\s+NAME\b', msg)`. -/
def mentionRule3 (msg nm : List Char) : Bool :=
  (List.range (msg.length + 1)).any (fun i =>
    boundaryAt msg i &&
    ["hey".data, "hi".data, "hello".data].any (fun g =>
      g.isPrefixOf (msg.drop i) &&
      wsThenLitAt msg nm (i + g.length) (fun e => boundaryAt msg e)))

/-- Rule 4: `re.search(r'\bNAME,?\s+(what|how|why|where|when)', msg)`. -/
def mentionRule4 (msg nm : List Char) : Bool :=
  (List.range (msg.length + 1)).any (fun i =>
    boundaryAt msg i && nm.isPrefixOf (msg.drop i) &&
    (let afterName := i + nm.length
     let whTail := fun (j : Nat) =>
       ["what".data, "how".data, "why".data, "where".data, "when".data].any
         (fun w => wsThenLitAt msg w j (fun _ => true))
     whTail afterName ||
     (match msg.drop afterName with
      | c :: _ => c == ',' && whTail (afterName + 1)
      | [] => false)))

/-- Rule 5: `re.search(r'NAME\s+(what|how|do\s+you|are\s+you|can\s+you)', msg)`
(no word boundaries; `do/are/can` are followed by `\s+you`). -/
def mentionRule5 (msg nm : List Char) : Bool :=
  (List.range (msg.length + 1)).any (fun i =>
    nm.isPrefixOf (msg.drop i) &&
    (let j := i + nm.length
     (["what".data, "how".data].any (fun w => wsThenLitAt msg w j (fun _ => true))) ||
     (["do".data, "are".data, "can".data].any (fun w =>
       wsThenLitAt msg w j (fun e => wsThenLitAt msg "you".data e (fun _ => true))))))

/-- Embedded `detect_character_mentions(user_message, character_ids, character_database)`:
candidates (in input order) for which any of the five rules fires against the
lower-cased message.  Rule 1 is plain substring containment of the lower-cased
display name, rule 2 is the `@name` form. -/
def detectCharacterMentions (msg : String) (ids : List String) (db : CharacterDB) :
    List String :=
  let ml := lowerS msg
  ids.filter (fun cid =>
    match dbLookup db cid with
    | none => false
    | some ch =>
      let nm := lowerS ch.name
      isSubstrL nm ml || isSubstrL ('@' :: nm) ml ||
      mentionRule3 ml nm || mentionRule4 ml nm || mentionRule5 ml nm)

/-! ### `smart_character_selector.py` — group detection, message type,
confidence, external opinion -/

/-- Embedded `group_message_indicators` (substring checks). -/
def groupMessageIndicators : List String :=
  ["everyone", "all", "guys", "team", "group", "both", "all of you",
   "what do you all", "what does everyone", "tell me about yourselves",
   "introduce yourselves", "how are you all", "what are your thoughts"]

/-- Embedded `group_question_patterns`, with each optional regex group `( all )?` and
alternation `(thoughts|opinions)` expanded into its finitely many literal
substrings (an unanchored `re.search` of such a pattern succeeds iff one of the
expansions is a substring). -/
def groupQuestionLits : List String :=
  ["what do you think", "what do you all think",
   "what are your thoughts", "what are your opinions",
   "how do you feel", "how do you all feel",
   "tell me about yourselves", "introduce yourselves",
   "what can you do", "what can you all do"]

/-- Embedded `is_group_directed_message(message_lower)`. -/
def isGroupDirectedMessage (cs : List Char) : Bool :=
  groupMessageIndicators.any (fun w => isSubstrL w.data cs) ||
  groupQuestionLits.any (fun w => isSubstrL w.data cs)

/-- Embedded `determine_message_type(message_lower)`. -/
def determineMessageType (cs : List Char) : String :=
  if isGreetingMessage cs then "greeting"
  else if (["?", "what", "how", "why", "where", "when", "who"] : List String).any
      (fun w => isSubstrL w.data cs) then "question"
  else if (["tell", "explain", "describe", "show"] : List String).any
      (fun w => isSubstrL w.data cs) then "request"
  else if (["debate", "argue", "discuss", "fight"] : List String).any
      (fun w => isSubstrL w.data cs) then "debate_trigger"
  else "statement"

/-- Embedded `calculate_confidence(mentioned_characters, is_group_message, is_greeting)`. -/
def calculateConfidence (mentioned : List String) (isGroup isGreet : Bool) : ℚ :=
  min ((1 : ℚ) / 2 + (if mentioned ≠ [] then (4 : ℚ) / 10 else 0) +
    (if isGroup then (3 : ℚ) / 10 else 0) +
    (if isGreet then (2 : ℚ) / 10 else 0)) 1

/-- Parsed JSON opinion of the external intent-analysis model (`reasoning`
kept for shape fidelity; `response_count` is optional because the selection
code reads it with `.get('response_count', 2)`; a missing `target_characters`
key and an empty list are both falsy so they are identified as `[]`). -/
structure AiAnalysis where
  targetType : String
  targetCharacters : List String
  reasoning : String
  responseCount : Option Int
deriving DecidableEq, Repr

/-- Embedded `get_ai_intent_analysis(user_message, character_ids, character_database)`:
the external call either yields a parsed opinion (`some a`) or fails (service
error / malformed JSON), in which case the deterministic fallback is returned:
target_type `general`, first two resolvable candidate names, response_count 1. -/
def getAiIntentAnalysis (ids : List String) (db : CharacterDB)
    (aiResult : Option AiAnalysis) : AiAnalysis :=
  match aiResult with
  | some a => a
  | none =>
    { targetType := "general"
      targetCharacters := (ids.filterMap (fun cid => (dbLookup db cid).map (·.name))).take 2
      reasoning := "Default response selection"
      responseCount := some 1 }

/-- Result of `analyze_message_intent`. -/
structure Intent where
  mentioned : List String
  isGroupMsg : Bool
  isGreet : Bool
  aiAnalysis : AiAnalysis
  messageType : String
  confidence : ℚ
deriving DecidableEq, Repr

/-- Embedded `analyze_message_intent(user_message, character_ids, character_database)`:
mentions use the raw message (lower-cased inside `detect_character_mentions`);
the remaining classifiers use the trimmed lower-cased message. -/
def analyzeMessageIntent (msg : String) (ids : List String) (db : CharacterDB)
    (aiResult : Option AiAnalysis) : Intent :=
  let ml := pyStripL (lowerS msg)
  let mentioned := detectCharacterMentions msg ids db
  let isGroup := isGroupDirectedMessage ml
  let isGreet := isGreetingMessage ml
  { mentioned := mentioned
    isGroupMsg := isGroup
    isGreet := isGreet
    aiAnalysis := getAiIntentAnalysis ids db aiResult
    messageType := determineMessageType ml
    confidence := calculateConfidence mentioned isGroup isGreet }

/-! ### `smart_character_selector.py` — responder selection -/

/-- Inner resolution of one AI target name: the first candidate id whose
profile name matches it case-insensitively (the inner `for`/`break`). -/
def resolveAiTarget (ids : List String) (db : CharacterDB) (tn : String) :
    Option String :=
  ids.find? (fun cid =>
    match dbLookup db cid with
    | none => false
    | some ch => lowerS ch.name == lowerS tn)

/-- Embedded `select_responding_characters(intent_analysis, character_ids,
character_database)`: strict priority cascade — mentions, greeting, group,
AI-opinion targets (truncated by the Python slice `[:response_count]`, which
is NOT clamped), then message-type defaults. -/
def selectRespondingCharacters (intent : Intent) (ids : List String)
    (db : CharacterDB) : List String :=
  if intent.mentioned ≠ [] then intent.mentioned
  else if intent.isGreet then ids
  else if intent.isGroupMsg then ids
  else
    let ai := intent.aiAnalysis
    let aiTargets := ai.targetCharacters.filterMap (resolveAiTarget ids db)
    if ai.targetCharacters ≠ [] ∧ aiTargets ≠ [] then
      pyTake (ai.responseCount.getD 2) aiTargets
    else if intent.messageType == "debate_trigger" then ids.take 2
    else if intent.messageType == "question" then ids.take 2
    else if intent.messageType == "request" then ids.take 1
    else if ids ≠ [] then ids.take 1
    else []

/-! ### `maincode.py` — enhanced relevance scoring -/

/-- One entry of `recent_messages` as read by `calculate_enhanced_relevance`
(`msg.get('role')`, `msg.get('character_name')`). -/
structure RecentMsg where
  role : String
  characterName : Option String := none
deriving DecidableEq, Repr

/-- Keyword list of `calculate_enhanced_relevance`: first 5 whitespace-words of
the lower-cased powers/abilities description plus first 5 of the lower-cased
personality description (absent and empty descriptions are falsy and skipped;
an empty string yields no words, so both cases produce `[]`). -/
def relevanceKeywords (ch : Character) : List (List Char) :=
  (match ch.powersAbilities with
   | some s => (pyWordsL (lowerS s)).take 5
   | none => []) ++
  (match ch.personality with
   | some s => (pyWordsL (lowerS s)).take 5
   | none => [])

/-- Number of keywords of length > 3 occurring in the lower-cased message. -/
def relevanceMatches (msg : String) (ch : Character) : Nat :=
  (relevanceKeywords ch).countP
    (fun w => decide (3 < w.length) && isSubstrL w (lowerS msg))

/-- Embedded `calculate_enhanced_relevance(user_message, character, recent_messages)`
from `maincode.py`, with floats as exact rationals: base 0.6, +0.4 on a name
mention, +0.2 if the character spoke in one of the last 3 recent messages,
+min(matches*0.1, 0.3) from keywords, total capped at 1.0. -/
def calculateEnhancedRelevance (msg : String) (ch : Character)
    (recent : List RecentMsg) : ℚ :=
  let base : ℚ := (6 : ℚ) / 10
  let base := if isSubstrL (lowerS ch.name) (lowerS msg) then base + (4 : ℚ) / 10 else base
  let base := if (pyLastN 3 recent).any
      (fun m => m.role == "character" && m.characterName == some ch.name)
    then base + (2 : ℚ) / 10 else base
  let base := base + min ((relevanceMatches msg ch : ℚ) * ((1 : ℚ) / 10)) ((3 : ℚ) / 10)
  min base 1

/-- The relevance formula exactly as the specification words it (claim C3):
identical to the source except that only the first 3 personality words feed
the keyword list.  Kept separate so the claim can be compared against the
source-derived `calculateEnhancedRelevance`. -/
def specClaimedRelevance (msg : String) (ch : Character)
    (recent : List RecentMsg) : ℚ :=
  let kws : List (List Char) :=
    (match ch.powersAbilities with
     | some s => (pyWordsL (lowerS s)).take 5
     | none => []) ++
    (match ch.personality with
     | some s => (pyWordsL (lowerS s)).take 3
     | none => [])
  let mcount : Nat := kws.countP
    (fun w => decide (3 < w.length) && isSubstrL w (lowerS msg))
  let base : ℚ := (6 : ℚ) / 10
  let base := if isSubstrL (lowerS ch.name) (lowerS msg) then base + (4 : ℚ) / 10 else base
  let base := if (pyLastN 3 recent).any
      (fun m => m.role == "character" && m.characterName == some ch.name)
    then base + (2 : ℚ) / 10 else base
  let base := base + min ((mcount : ℚ) * ((1 : ℚ) / 10)) ((3 : ℚ) / 10)
  min base 1

/-! ### `conversation_orchestrator.py` — trigger patterns

The debate triggers are `re.search` patterns of two shapes: a literal followed
by a greedy capture `(.+)` (where `.` excludes newline), and `(.+) vs (.+)`.
`re.search` returns the match with the leftmost starting index; at a fixed
start the greedy `(.+)` takes the longest feasible run. -/

/-- All characters non-newline. -/
def noNewline (cs : List Char) : Bool := cs.all (fun c => c != '\n')

/-- Can pattern `LIT(.+)` match at start index `i`?  Needs `lit` there followed
by at least one non-newline character. -/
def litPatAt (lit msg : List Char) (i : Nat) : Bool :=
  lit.isPrefixOf (msg.drop i) &&
  (match msg.drop (i + lit.length) with
   | c :: _ => c != '\n'
   | [] => false)

/-- Search `re.search(r'LIT(.+)', msg)`: group 1 of the leftmost match — the maximal
non-newline run after the first feasible occurrence of `lit`. -/
def searchLitPat (lit msg : List Char) : Option (List Char) :=
  match (List.range (msg.length + 1)).find? (litPatAt lit msg) with
  | some i => some ((msg.drop (i + lit.length)).takeWhile (fun c => c != '\n'))
  | none => none

/-- Is `k ≥ 1` a feasible first-group length for `(.+) vs (.+)` at start `i`? -/
def vsPatAt (msg : List Char) (i k : Nat) : Bool :=
  decide (1 ≤ k) && decide (i + k ≤ msg.length) &&
  noNewline ((msg.drop i).take k) &&
  " vs ".data.isPrefixOf (msg.drop (i + k)) &&
  (match msg.drop (i + k + 4) with
   | c :: _ => c != '\n'
   | [] => false)

/-- Group 1 of a `(.+) vs (.+)` match at start `i`: greedy, so the largest
feasible `k`. -/
def vsGroupAt (msg : List Char) (i : Nat) : Option (List Char) :=
  match (List.range (msg.length + 1)).reverse.find? (vsPatAt msg i) with
  | some k => some ((msg.drop i).take k)
  | none => none

/-- Search `re.search(r'(.+) vs (.+)', msg)`: group 1 at the leftmost feasible start. -/
def searchVsPat (msg : List Char) : Option (List Char) :=
  match (List.range (msg.length + 1)).find? (fun i => (vsGroupAt msg i).isSome) with
  | some i => vsGroupAt msg i
  | none => none

/-- One debate-trigger pattern. -/
inductive TriggerPat where
  | litCap (lit : String)
  | vsCap
deriving DecidableEq, Repr

/-- Group 1 of the pattern's leftmost match in `msg`, if any. -/
def searchPat (p : TriggerPat) (msg : List Char) : Option (List Char) :=
  match p with
  | .litCap lit => searchLitPat lit.data msg
  | .vsCap => searchVsPat msg

/-- Embedded `self.debate_triggers`, in source order. -/
def debateTriggers : List TriggerPat :=
  [.litCap "debate about ", .litCap "argue about ", .litCap "discuss ",
   .litCap "what do you think about ", .vsCap,
   .litCap "fight about ", .litCap "talk about "]

/-- Embedded `discussion_keywords` of `detect_autonomous_trigger`. -/
def discussionKeywords : List String := ["discuss", "talk", "chat", "conversation"]

/-! ### `conversation_orchestrator.py` — state -/

/-- One entry of `conversation_history` (`datetime` timestamp dropped:
nothing in the embedded operations reads it back). -/
structure HistEntry where
  speaker : String
  response : String
deriving DecidableEq, Repr

/-- An autonomous conversation config, as stored in
`self.active_autonomous_chats[group_id]`.  `maxRounds` models
`config.get('max_rounds', 6)` on configs that always carry the key (both
trigger specs set it); `startedAt` is dropped with the other timestamps. -/
structure AutoConfig where
  ctype : String
  topic : String
  participants : List String
  duration : String := "until_stop"
  maxRounds : ℚ
  currentRound : ℚ
  lastSpeaker : Option String := none
  history : List HistEntry := []
deriving DecidableEq, Repr

/-- The process-wide registry `self.active_autonomous_chats`, as a partial map
keyed by group id. -/
def Registry := String → Option AutoConfig

/-- Dict write `self.active_autonomous_chats[group_id] = config`. -/
def regSet (reg : Registry) (gid : String) (cfg : AutoConfig) : Registry :=
  fun g => if g = gid then some cfg else reg g

/-- Embedded `end_autonomous_conversation(group_id)`: delete the entry if present. -/
def endAutonomousConversation (reg : Registry) (gid : String) : Registry :=
  if (reg gid).isSome then (fun g => if g = gid then none else reg g) else reg

/-- Embedded `is_autonomous_active(group_id)`. -/
def isAutonomousActive (reg : Registry) (gid : String) : Bool :=
  (reg gid).isSome

/-- Embedded `detect_autonomous_trigger(user_message, character_ids)`: first matching
debate pattern (in list order) yields a debate spec with the stripped captured
topic and the first two candidates; otherwise a discussion keyword anywhere in
the trimmed lower-cased message yields a discussion spec over the full raw
message and all candidates; otherwise no trigger. -/
def detectAutonomousTrigger (msg : String) (ids : List String) :
    Option AutoConfig :=
  let ml := pyStripL (lowerS msg)
  match debateTriggers.findSome? (fun p => searchPat p ml) with
  | some g =>
    some { ctype := "debate"
           topic := ⟨pyStripL g⟩
           participants := if 2 ≤ ids.length then ids.take 2 else ids
           maxRounds := 8
           currentRound := 0 }
  | none =>
    if discussionKeywords.any (fun k => isSubstrL k.data ml) then
      some { ctype := "discussion"
             topic := msg
             participants := ids
             maxRounds := 6
             currentRound := 0 }
    else none

/-- Embedded `start_autonomous_conversation(conversation_config, group_id)`. -/
def startAutonomousConversation (reg : Registry) (cfg : AutoConfig)
    (gid : String) : Registry :=
  regSet reg gid { cfg with lastSpeaker := none, history := [] }

/-- Python truthiness of the optional `last_speaker`: `None` and the empty
string are both falsy. -/
def lastSpeakerFalsy (o : Option String) : Bool :=
  match o with
  | none => true
  | some s => s == ""

/-- Index of the first occurrence (`list.index`, which raises on absence —
modelled by `none`). -/
def firstIdx (xs : List String) (a : String) : Option Nat :=
  match xs.findIdx? (fun x => x == a) with
  | some i => some i
  | none => none

/-- Embedded `select_next_speaker(config)`; the extra argument `k` resolves
`random.choice` as `available[k % available.length]` so that quantifying over
`k` covers every possible draw.  `participants[0]` on an empty list (a Python
`IndexError`) is modelled by `none` via `head?`. -/
def selectNextSpeaker (cfg : AutoConfig) (k : Nat) : Option String :=
  let ps := cfg.participants
  if lastSpeakerFalsy cfg.lastSpeaker then ps.head?
  else
    match cfg.lastSpeaker with
    | none => ps.head?
    | some last =>
      if cfg.ctype == "debate" then
        match firstIdx ps last with
        | some i => ps[(i + 1) % ps.length]?
        | none => ps.head?
      else if cfg.ctype == "discussion" then
        let avail := ps.filter (fun p => p != last)
        if avail.isEmpty then ps.head?
        else avail[k % avail.length]?
      else ps.head?

/-- Embedded `should_end_conversation(config)`: round limit reached, or the last 4
history entries (when at least 4 exist) have fewer than `4 * 0.7` distinct
lower-cased texts. -/
def shouldEndConversation (cfg : AutoConfig) : Bool :=
  if cfg.currentRound ≥ cfg.maxRounds then true
  else
    let recent := pyLastN 4 cfg.history
    if 4 ≤ recent.length then
      let texts := recent.map (fun r => lowerS r.response)
      decide ((texts.dedup.length : ℚ) < (texts.length : ℚ) * ((7 : ℚ) / 10))
    else false

/-- Embedded `handle_user_interruption(user_message, group_id)`: on any stop-word in the
lower-cased message remove the group's state and report `true`; otherwise
report `false` with the registry untouched. -/
def handleUserInterruption (msg : String) (gid : String) (reg : Registry) :
    Bool × Registry :=
  if (["stop", "enough", "pause", "end", "quit", "finish"] : List String).any
      (fun w => isSubstrL w.data (lowerS msg)) then
    (true, endAutonomousConversation reg gid)
  else (false, reg)

/-! ### `conversation_orchestrator.py` — turn generation -/

/-- Python `str.title()`, ASCII fragment: the first letter of each maximal
letter run upper-cased, the rest lower-cased. -/
def pyTitleAux : List Char → Bool → List Char
  | [], _ => []
  | c :: cs, prevAlpha =>
    (if c.isAlpha then (if prevAlpha then c.toLower else c.toUpper) else c) ::
      pyTitleAux cs c.isAlpha

def pyTitle (s : String) : String := ⟨pyTitleAux s.data false⟩

/-- Rendering of the float round counter inside the conclusion message.
Reachable rounds are non-negative multiples of 0.5, where Python's float repr
is `"<n>.0"` or `"<n>.5"`; other rationals (unreachable) fall back to a plain
fraction rendering. -/
def pyFloatStr (q : ℚ) : String :=
  if q.den = 1 then toString q.num ++ ".0"
  else if q.den = 2 then toString (q.num / 2) ++ ".5"
  else toString q.num ++ "/" ++ toString q.den

/-- One message returned by `generate_autonomous_response` (the Python dicts;
the system conclusion dict carries no `autonomous` key, modelled as `false`). -/
structure OutMsg where
  characterId : String
  characterName : String
  response : String
  autonomous : Bool
deriving DecidableEq, Repr

/-- The conclusion banner text. -/
def concludedText (cfg : AutoConfig) : String :=
  "🏁 " ++ pyTitle cfg.ctype ++ " concluded after " ++ pyFloatStr cfg.currentRound
    ++ " rounds!"

/-- Embedded `generate_character_autonomous_response(character, config,
character_database)`.  The prompt assembly feeds only the external service and
is absorbed into the oracle `genResult`: `some raw` models a successful call
whose choice content is `raw`; `none` models an exception or an empty/missing
choice list.  A successful text is stripped and one layer of wrapping double
quotes removed; on failure the deterministic in-character placeholder is
returned. -/
def generateCharacterAutonomousResponse (ch : Character) (cfg : AutoConfig)
    (genResult : Option String) : String :=
  match genResult with
  | some raw =>
    let t := pyStripL raw.data
    if (match t with | c :: _ => c == '"' | [] => false) &&
       (match t.reverse with | c :: _ => c == '"' | [] => false) then
      ⟨(t.drop 1).dropLast⟩
    else ⟨t⟩
  | none => "*" ++ ch.name ++ " is thinking about " ++ cfg.topic ++ "...*"

/-- Embedded `generate_autonomous_response(group_id, character_database)`, with the
registry passed and returned explicitly, `k` resolving the random draw and
`genResult` the generation oracle.  Returns the emitted messages and the new
registry. -/
def generateAutonomousResponse (reg : Registry) (gid : String)
    (db : CharacterDB) (k : Nat) (genResult : Option String) :
    List OutMsg × Registry :=
  match reg gid with
  | none => ([], reg)
  | some cfg =>
    if shouldEndConversation cfg then
      ([{ characterId := "system", characterName := "System",
          response := concludedText cfg, autonomous := false }],
       endAutonomousConversation reg gid)
    else
      match selectNextSpeaker cfg k with
      | none => ([], reg)
      | some sid =>
        if sid == "" then ([], reg)
        else
          match dbLookup db sid with
          | none => ([], reg)
          | some ch =>
            let txt := generateCharacterAutonomousResponse ch cfg genResult
            if txt.data.isEmpty then ([], reg)
            else
              let cfg' := { cfg with
                lastSpeaker := some sid
                currentRound := cfg.currentRound + (1 : ℚ) / 2
                history := cfg.history ++ [{ speaker := sid, response := txt }] }
              ([{ characterId := sid, characterName := ch.name,
                  response := txt, autonomous := true }],
               regSet reg gid cfg')

/-! ### Shared concrete sample data for witnesses and counterexamples -/

/-- A small character store: two ordinary characters. -/
def sampleDb : CharacterDB :=
  [("a", { name := "Alice" }), ("b", { name := "Bob" })]

/-- A store whose first character is named `Hi` (a legal display name that
collides with the greeting grammar). -/
def dbHi : CharacterDB :=
  [("hi_guy", { name := "Hi" }), ("bob", { name := "Bob" })]

/-- A fresh two-party debate state. -/
def sampleCfg : AutoConfig :=
  { ctype := "debate", topic := "cats", participants := ["a", "b"],
    maxRounds := 8, currentRound := 0 }

/-- A registry holding `sampleCfg` for group `g1`. -/
def sampleReg : Registry := fun g => if g = "g1" then some sampleCfg else none

/-! ### Helper lemmas -/

lemma findSome?_eq_some_ex {α β : Type} (f : α → Option β) (l : List α) (b : β)
    (h : l.findSome? f = some b) : ∃ a ∈ l, f a = some b := by
  induction l with
  | nil => simp [List.findSome?] at h
  | cons x xs ih =>
    rw [List.findSome?_cons] at h
    cases hx : f x with
    | some v =>
      simp only [hx] at h
      exact ⟨x, by simp, by rw [hx, h]⟩
    | none =>
      simp only [hx] at h
      obtain ⟨a, ha, hfa⟩ := ih h
      exact ⟨a, by simp [ha], hfa⟩

lemma findSome?_eq_none_all {α β : Type} (f : α → Option β) (l : List α)
    (h : l.findSome? f = none) : ∀ a ∈ l, f a = none := by
  induction l with
  | nil => simp
  | cons x xs ih =>
    rw [List.findSome?_cons] at h
    cases hx : f x with
    | some v => rw [hx] at h; exact absurd h (by simp)
    | none =>
      rw [hx] at h
      intro a ha
      rcases List.mem_cons.mp ha with rfl | ha2
      · exact hx
      · exact ih h a ha2

lemma pyTake_ne_nil {α : Type} (n : Int) (xs : List α)
    (hn : 1 ≤ n) (hxs : xs ≠ []) : pyTake n xs ≠ [] := by
  have h0 : 0 ≤ n := le_trans (by norm_num) hn
  simp only [pyTake, if_pos h0]
  rw [Ne, List.take_eq_nil_iff]
  push_neg
  refine ⟨?_, hxs⟩
  have : (1 : Int).toNat ≤ n.toNat := Int.toNat_le_toNat hn
  omega

lemma length_pyLastN {α : Type} (n : Nat) (xs : List α) :
    (pyLastN n xs).length = xs.length - (xs.length - n) := by
  simp [pyLastN]

/-! ### Claim C9 — user interruption -/

/-- C9: `handle_user_interruption` removes exactly the targeted group's entry
and returns `true` when the lower-cased message contains a stop-word (so a
subsequent `is_autonomous_active` query for that group is `false`), and
otherwise returns `false` with the registry entirely unchanged; in both cases
every other group's entry is untouched. -/
theorem interruption_removes_exactly_group (msg gid : String) (reg : Registry) :
    ((["stop", "enough", "pause", "end", "quit", "finish"] : List String).any
        (fun w => isSubstrL w.data (lowerS msg)) = true →
      (handleUserInterruption msg gid reg).1 = true ∧
      (handleUserInterruption msg gid reg).2 gid = none ∧
      isAutonomousActive (handleUserInterruption msg gid reg).2 gid = false ∧
      ∀ g, g ≠ gid → (handleUserInterruption msg gid reg).2 g = reg g) ∧
    ((["stop", "enough", "pause", "end", "quit", "finish"] : List String).any
        (fun w => isSubstrL w.data (lowerS msg)) = false →
      handleUserInterruption msg gid reg = (false, reg)) := by
  constructor
  · intro h
    refine ⟨by simp [handleUserInterruption, h], ?_, ?_, ?_⟩
    · simp only [handleUserInterruption, if_pos h, endAutonomousConversation]
      split
      · simp
      · next hn => exact Option.not_isSome_iff_eq_none.mp hn
    · simp only [handleUserInterruption, if_pos h, isAutonomousActive,
        endAutonomousConversation]
      split
      · simp
      · next hn =>
        simp [Option.not_isSome_iff_eq_none.mp hn]
    · intro g hg
      simp only [handleUserInterruption, if_pos h, endAutonomousConversation]
      split
      · simp [hg]
      · rfl
  · intro h
    simp [handleUserInterruption, h]

/-- Witness for C9 at concrete inputs: `"please stop"` deactivates group `g1`
leaving group `g2` alone, while `"carry on"` changes nothing. -/
theorem interruption_removes_exactly_group_witness :
    (handleUserInterruption "please stop" "g1" sampleReg).1 = true ∧
    (handleUserInterruption "please stop" "g1" sampleReg).2 "g1" = none ∧
    (handleUserInterruption "please stop" "g1" sampleReg).2 "g2" = sampleReg "g2" ∧
    handleUserInterruption "carry on" "g1" sampleReg = (false, sampleReg) := by
  have h1 := (interruption_removes_exactly_group "please stop" "g1" sampleReg).1
    (by decide)
  have h2 := (interruption_removes_exactly_group "carry on" "g1" sampleReg).2
    (by decide)
  exact ⟨h1.1, h1.2.1, h1.2.2.2 "g2" (by decide), h2⟩

/-! ### Claim C6 — debate turn order -/

/-- C6: for a debate-kind state, `select_next_speaker` returns the first
participant when the last speaker is unset (Python-falsy: `None`, matching the
source's `if not last_speaker`), and otherwise the participant at position
`(index(last_speaker) + 1) mod |participants|`; with participants `[A, B]` the
speakers strictly alternate `A → B → A`. -/
theorem debate_next_speaker_alternates (cfg : AutoConfig)
    (hdeb : cfg.ctype = "debate") :
    (∀ k, cfg.lastSpeaker = none →
      selectNextSpeaker cfg k = cfg.participants.head?) ∧
    (∀ k s i, cfg.lastSpeaker = some s → s ≠ "" →
      firstIdx cfg.participants s = some i →
      selectNextSpeaker cfg k = cfg.participants[(i + 1) % cfg.participants.length]?) ∧
    (∀ k a b, cfg.participants = [a, b] → a ≠ "" → b ≠ "" →
      (cfg.lastSpeaker = some a → selectNextSpeaker cfg k = some b) ∧
      (cfg.lastSpeaker = some b → selectNextSpeaker cfg k = some a)) := by
  have hmain : ∀ k s i, cfg.lastSpeaker = some s → s ≠ "" →
      firstIdx cfg.participants s = some i →
      selectNextSpeaker cfg k = cfg.participants[(i + 1) % cfg.participants.length]? := by
    intro k s i hs hne hidx
    have hfalsy : lastSpeakerFalsy (some s) = false := by
      simp only [lastSpeakerFalsy]
      exact beq_eq_false_iff_ne.mpr hne
    simp [selectNextSpeaker, hs, hfalsy, hdeb, hidx]
  refine ⟨?_, hmain, ?_⟩
  · intro k hnone
    simp [selectNextSpeaker, hnone, lastSpeakerFalsy]
  · intro k a b hps ha hb
    constructor
    · intro hla
      have hidx : firstIdx cfg.participants a = some 0 := by
        simp [firstIdx, hps, List.findIdx?_cons]
      have h := hmain k a 0 hla ha hidx
      rw [hps] at h
      simpa using h
    · intro hlb
      by_cases hab : a = b
      · subst hab
        have hidx : firstIdx cfg.participants a = some 0 := by
          simp [firstIdx, hps, List.findIdx?_cons]
        have h := hmain k a 0 hlb ha hidx
        rw [hps] at h
        simpa using h
      · have hab' : (a == b) = false := beq_eq_false_iff_ne.mpr hab
        have hidx : firstIdx cfg.participants b = some 1 := by
          simp [firstIdx, hps, List.findIdx?_cons, hab']
        have h := hmain k b 1 hlb hb hidx
        rw [hps] at h
        simpa using h

/-- Sample states for the C6 witness: the debate after `a` spoke and after `b`
spoke. -/
def sampleCfgLastA : AutoConfig := { sampleCfg with lastSpeaker := some "a" }

def sampleCfgLastB : AutoConfig := { sampleCfg with lastSpeaker := some "b" }

/-- Witness for C6 at the sample debate state: with no last speaker the first
participant `a` speaks; after `a` comes `b`; after `b` comes `a`. -/
theorem debate_next_speaker_alternates_witness :
    selectNextSpeaker sampleCfg 0 = some "a" ∧
    selectNextSpeaker sampleCfgLastA 0 = some "b" ∧
    selectNextSpeaker sampleCfgLastB 0 = some "a" := by
  refine ⟨?_, ?_, ?_⟩
  · have h := (debate_next_speaker_alternates sampleCfg rfl).1 0 rfl
    simpa [sampleCfg] using h
  · exact ((debate_next_speaker_alternates sampleCfgLastA rfl).2.2 0 "a" "b"
      rfl (by decide) (by decide)).1 rfl
  · exact ((debate_next_speaker_alternates sampleCfgLastB rfl).2.2 0 "a" "b"
      rfl (by decide) (by decide)).2 rfl

/-! ### Claim C7 — discussion speaker rotation -/

/-- C7: for a discussion-kind state with a set (truthy) last speaker, whatever
the random draw `k`, the selected speaker is a participant different from the
last speaker — except when every participant equals the last speaker, in which
case the first participant (the previous speaker) is returned. -/
theorem discussion_next_speaker_not_last (cfg : AutoConfig) (s : String)
    (hdisc : cfg.ctype = "discussion") (hs : cfg.lastSpeaker = some s)
    (hne : s ≠ "") :
    (∀ k r, selectNextSpeaker cfg k = some r →
      (∃ p ∈ cfg.participants, p ≠ s) →
      r ∈ cfg.participants ∧ r ≠ s) ∧
    ((∀ p ∈ cfg.participants, p = s) →
      ∀ k, selectNextSpeaker cfg k = cfg.participants.head?) := by
  have hfalsy : lastSpeakerFalsy (some s) = false := by
    simp only [lastSpeakerFalsy]
    exact beq_eq_false_iff_ne.mpr hne
  have hsel : ∀ k, selectNextSpeaker cfg k =
      (if (cfg.participants.filter (fun p => p != s)).isEmpty then
        cfg.participants.head?
      else (cfg.participants.filter (fun p => p != s))[k %
        (cfg.participants.filter (fun p => p != s)).length]?) := by
    intro k
    simp [selectNextSpeaker, hs, hfalsy, hdisc]
  constructor
  · intro k r hr hex
    have havail : cfg.participants.filter (fun p => p != s) ≠ [] := by
      obtain ⟨p, hp, hps⟩ := hex
      exact List.ne_nil_of_mem (List.mem_filter.mpr ⟨hp, by simpa using hps⟩)
    rw [hsel k, if_neg (by simpa [List.isEmpty_iff] using havail)] at hr
    have hmem : r ∈ cfg.participants.filter (fun p => p != s) := by
      have hlt : k % (cfg.participants.filter (fun p => p != s)).length <
          (cfg.participants.filter (fun p => p != s)).length :=
        Nat.mod_lt _ (List.length_pos.mpr havail)
      rw [List.getElem?_eq_getElem hlt, Option.some_inj] at hr
      rw [← hr]
      exact List.getElem_mem hlt
    have h2 := List.mem_filter.mp hmem
    exact ⟨h2.1, by simpa using h2.2⟩
  · intro hall k
    have havail : cfg.participants.filter (fun p => p != s) = [] := by
      rw [List.filter_eq_nil_iff]
      intro p hp
      simp [hall p hp]
    rw [hsel k, havail]
    simp

/-- Sample states for the C7 witness: a three-party discussion after `a`
spoke, and a single-party one. -/
def discCfg3 : AutoConfig :=
  { ctype := "discussion", topic := "cats", participants := ["a", "b", "c"],
    maxRounds := 6, currentRound := 0, lastSpeaker := some "a" }

def discCfg1 : AutoConfig :=
  { ctype := "discussion", topic := "cats", participants := ["a"],
    maxRounds := 6, currentRound := 0, lastSpeaker := some "a" }

/-- Witness for C7: in a three-party discussion whose last speaker was `a`,
draw 0 does not select `a` again; with `a` as the only participant the first
participant (`a` itself) is returned. -/
theorem discussion_next_speaker_not_last_witness :
    (selectNextSpeaker discCfg3 0 ≠ some "a") ∧
    (selectNextSpeaker discCfg1 0 = some "a") := by
  constructor
  · intro hcon
    have h := ((discussion_next_speaker_not_last discCfg3 "a" rfl rfl
      (by decide)).1 0 "a" hcon ⟨"b", by decide, by decide⟩).2
    exact h rfl
  · have h := (discussion_next_speaker_not_last discCfg1 "a" rfl rfl
      (by decide)).2 (by decide) 0
    simpa using h

/-! ### Claim C8 — termination conditions -/

/-- Lower-cased texts of the last 4 history entries. -/
def lastFourTexts (cfg : AutoConfig) : List (List Char) :=
  (pyLastN 4 cfg.history).map (fun r => lowerS r.response)

/-- C8: `should_end_conversation` is true iff the round limit is reached, or
the history holds at least 4 entries whose last 4 lower-cased texts have fewer
than `4 * 0.7` distinct values; in particular it fires whenever those texts
have at most 2 distinct values, and stays false below the round limit when all
4 are distinct. -/
theorem should_end_iff (cfg : AutoConfig) :
    (shouldEndConversation cfg = true ↔
      cfg.currentRound ≥ cfg.maxRounds ∨
      (4 ≤ cfg.history.length ∧
        ((lastFourTexts cfg).dedup.length : ℚ) < 4 * ((7 : ℚ) / 10))) ∧
    (4 ≤ cfg.history.length → (lastFourTexts cfg).dedup.length ≤ 2 →
      shouldEndConversation cfg = true) ∧
    (cfg.currentRound < cfg.maxRounds → 4 ≤ cfg.history.length →
      (lastFourTexts cfg).Nodup →
      shouldEndConversation cfg = false) := by
  have hlen4 : 4 ≤ cfg.history.length → (lastFourTexts cfg).length = 4 := by
    intro h4
    simp only [lastFourTexts, List.length_map, length_pyLastN]
    omega
  have hlenrec : (pyLastN 4 cfg.history).length =
      cfg.history.length - (cfg.history.length - 4) := length_pyLastN 4 cfg.history
  have hiff : shouldEndConversation cfg = true ↔
      cfg.currentRound ≥ cfg.maxRounds ∨
      (4 ≤ cfg.history.length ∧
        ((lastFourTexts cfg).dedup.length : ℚ) < 4 * ((7 : ℚ) / 10)) := by
    simp only [shouldEndConversation]
    split
    · next hr => simp [hr]
    · next hr =>
      split
      · next h4 =>
        have h4' : 4 ≤ cfg.history.length := by omega
        have hl := hlen4 h4'
        simp only [decide_eq_true_eq, hr, false_or]
        rw [show ((pyLastN 4 cfg.history).map (fun r => lowerS r.response)) =
          lastFourTexts cfg from rfl, hl]
        constructor
        · intro h; exact ⟨h4', by push_cast at h ⊢; linarith⟩
        · intro h
          have h2 := h.2
          push_cast at h2 ⊢
          linarith
      · next h4 =>
        have h4' : ¬ 4 ≤ cfg.history.length := by omega
        simp [hr, h4']
  refine ⟨hiff, ?_, ?_⟩
  · intro h4 hded
    rw [hiff]
    right
    refine ⟨h4, ?_⟩
    have : ((lastFourTexts cfg).dedup.length : ℚ) ≤ 2 := by exact_mod_cast hded
    linarith
  · intro hr h4 hnd
    rw [← Bool.not_eq_true, hiff]
    push_neg
    refine ⟨hr, fun _ => ?_⟩
    rw [List.dedup_eq_self.mpr hnd, hlen4 h4]
    norm_num

/-- Witness for C8: at round 8 of 8 the debate ends regardless of history;
below the limit, 4 recent texts with only 2 distinct values end it, while 4
distinct texts do not. -/
theorem should_end_iff_witness :
    shouldEndConversation { sampleCfg with currentRound := 8 } = true ∧
    shouldEndConversation { sampleCfg with history :=
      [⟨"a", "Yes"⟩, ⟨"b", "yes"⟩, ⟨"a", "No"⟩, ⟨"b", "no"⟩] } = true ∧
    shouldEndConversation { sampleCfg with history :=
      [⟨"a", "p"⟩, ⟨"b", "q"⟩, ⟨"a", "r"⟩, ⟨"b", "s"⟩] } = false := by
  refine ⟨?_, ?_, ?_⟩
  · exact (should_end_iff { sampleCfg with currentRound := 8 }).1.mpr
      (Or.inl (by norm_num [sampleCfg]))
  · exact (should_end_iff _).2.1 (by decide) (by decide)
  · exact (should_end_iff _).2.2 (by norm_num [sampleCfg]) (by decide) (by decide)

/-! ### Claim C1 — behaviour of a failed generation call -/

/-- The deterministic in-character placeholder produced on generation failure. -/
def thinkingPlaceholder (ch : Character) (cfg : AutoConfig) : String :=
  "*" ++ ch.name ++ " is thinking about " ++ cfg.topic ++ "...*"

/-- C1 as amended: on a failed generation call the placeholder
`*<name> is thinking about <topic>...*` is returned as the turn's text, and —
contrary to the original claim — the state is mutated exactly as for a
successful turn: the round advances by 0.5, the last speaker becomes the
selected speaker, and the placeholder is appended to the history. -/
theorem generation_failure_placeholder_turn (reg : Registry) (gid : String)
    (db : CharacterDB) (k : Nat) (cfg : AutoConfig) (sid : String)
    (ch : Character) (hreg : reg gid = some cfg)
    (hend : shouldEndConversation cfg = false)
    (hsp : selectNextSpeaker cfg k = some sid) (hsid : sid ≠ "")
    (hdb : dbLookup db sid = some ch) :
    generateAutonomousResponse reg gid db k none =
      ([{ characterId := sid, characterName := ch.name,
          response := thinkingPlaceholder ch cfg, autonomous := true }],
       regSet reg gid { cfg with
         lastSpeaker := some sid
         currentRound := cfg.currentRound + (1 : ℚ) / 2
         history := cfg.history ++
           [{ speaker := sid, response := thinkingPlaceholder ch cfg }] }) := by
  have hne : (thinkingPlaceholder ch cfg).data.isEmpty = false := by
    simp [thinkingPlaceholder, String.data_append]
  have hsid' : (sid == "") = false := beq_eq_false_iff_ne.mpr hsid
  simp [generateAutonomousResponse, hreg, hend, hsp, hsid', hdb,
    generateCharacterAutonomousResponse, hne, thinkingPlaceholder]

/-- Witness for the amended C1 at the sample state: all hypotheses hold
concretely and the placeholder turn is produced. -/
theorem generation_failure_placeholder_turn_witness :
    generateAutonomousResponse sampleReg "g1" sampleDb 0 none =
      ([{ characterId := "a", characterName := "Alice",
          response := thinkingPlaceholder { name := "Alice" } sampleCfg,
          autonomous := true }],
       regSet sampleReg "g1" { sampleCfg with
         lastSpeaker := some "a"
         currentRound := sampleCfg.currentRound + (1 : ℚ) / 2
         history := sampleCfg.history ++
           [{ speaker := "a",
              response := thinkingPlaceholder { name := "Alice" } sampleCfg }] }) := by
  exact generation_failure_placeholder_turn sampleReg "g1" sampleDb 0 sampleCfg
    "a" { name := "Alice" } (by decide) (by decide) (by decide) (by decide)
    (by decide)

/-- Counterexample to C1 as stated: on a fresh active debate with the selected
speaker present in the store, a failed generation call (`genResult = none`)
returns the placeholder text, but the state is NOT left unchanged — the round
advances from 0 to 0.5, the last speaker is set, and the placeholder is
appended to the history (the fallback string is truthy, so
`generate_autonomous_response` treats it as a normal turn). -/
theorem generation_failure_mutates_state_cex :
    ((generateAutonomousResponse sampleReg "g1" sampleDb 0 none).1.map
        (fun m => m.response) = ["*Alice is thinking about cats...*"]) ∧
    ((generateAutonomousResponse sampleReg "g1" sampleDb 0 none).2 "g1").map
        (fun c => c.currentRound) = some ((1 : ℚ) / 2) ∧
    (sampleReg "g1").map (fun c => c.currentRound) = some 0 ∧
    ((generateAutonomousResponse sampleReg "g1" sampleDb 0 none).2 "g1").map
        (fun c => c.lastSpeaker) ≠ (sampleReg "g1").map (fun c => c.lastSpeaker) ∧
    ((generateAutonomousResponse sampleReg "g1" sampleDb 0 none).2 "g1").map
        (fun c => c.history) ≠ (sampleReg "g1").map (fun c => c.history) := by
  have hne : (thinkingPlaceholder { name := "Alice" } sampleCfg).data.isEmpty
      = false := by decide
  have hreg : sampleReg "g1" = some sampleCfg := by decide
  have hend : shouldEndConversation sampleCfg = false := by decide
  have hsp : selectNextSpeaker sampleCfg 0 = some "a" := by decide
  have hdb : dbLookup sampleDb "a" = some { name := "Alice" } := by decide
  have hgen : generateCharacterAutonomousResponse { name := "Alice" } sampleCfg
      none = "*Alice is thinking about cats...*" := by decide
  have hpair : generateAutonomousResponse sampleReg "g1" sampleDb 0 none =
      ([{ characterId := "a", characterName := "Alice",
          response := "*Alice is thinking about cats...*", autonomous := true }],
       regSet sampleReg "g1" { sampleCfg with
         lastSpeaker := some "a"
         currentRound := sampleCfg.currentRound + (1 : ℚ) / 2
         history := sampleCfg.history ++
           [{ speaker := "a",
              response := "*Alice is thinking about cats...*" }] }) := by
    have hne2 : (generateCharacterAutonomousResponse { name := "Alice" }
        sampleCfg none).data.isEmpty = false := by rw [hgen]; decide
    simp [generateAutonomousResponse, hreg, hend, hsp, hdb, hne2, hgen]
  refine ⟨by rw [hpair]; rfl, ?_, by decide, ?_, ?_⟩
  · rw [hpair]
    simp only [regSet, if_pos rfl, Option.map_some]
    norm_num [sampleCfg]
  · rw [hpair, hreg]
    simp [regSet, sampleCfg]
  · rw [hpair, hreg]
    simp [regSet, sampleCfg]

/-! ### Claim C10 — autonomous trigger detection -/

/-- C10: any message on which the `discuss (.+)` or `talk about (.+)` debate
pattern fires (in particular every message of the form `discuss <topic>` /
`talk about <topic>`) yields a debate spec — max_rounds 8, participants the
first two of at least two candidates, topic the stripped capture of the first
matching debate pattern — never a discussion spec; and a discussion spec
(topic the full raw message, all candidates, max_rounds 6) arises only when a
discussion keyword occurs in the message while every debate pattern fails. -/
theorem trigger_debate_over_discussion :
    (∀ (msg : String) (ids : List String) (g : List Char),
      2 ≤ ids.length →
      (searchPat (.litCap "discuss ") (pyStripL (lowerS msg)) = some g ∨
       searchPat (.litCap "talk about ") (pyStripL (lowerS msg)) = some g) →
      ∃ spec, detectAutonomousTrigger msg ids = some spec ∧
        spec.ctype = "debate" ∧ spec.maxRounds = 8 ∧
        spec.participants = ids.take 2 ∧
        ∃ p ∈ debateTriggers, ∃ g2,
          searchPat p (pyStripL (lowerS msg)) = some g2 ∧
          spec.topic = ⟨pyStripL g2⟩) ∧
    (∀ (msg : String) (ids : List String) (spec : AutoConfig),
      detectAutonomousTrigger msg ids = some spec →
      spec.ctype = "discussion" →
      (discussionKeywords.any
        (fun kw => isSubstrL kw.data (pyStripL (lowerS msg))) = true) ∧
      (∀ p ∈ debateTriggers, searchPat p (pyStripL (lowerS msg)) = none) ∧
      spec.topic = msg ∧ spec.participants = ids ∧ spec.maxRounds = 6) := by
  constructor
  · intro msg ids g hids hmatch
    have hsome : debateTriggers.findSome?
        (fun p => searchPat p (pyStripL (lowerS msg))) ≠ none := by
      intro hnone
      have hall := findSome?_eq_none_all _ _ hnone
      rcases hmatch with h | h
      · exact absurd (hall (.litCap "discuss ") (by simp [debateTriggers]))
          (by rw [h]; simp)
      · exact absurd (hall (.litCap "talk about ") (by simp [debateTriggers]))
          (by rw [h]; simp)
    obtain ⟨g2, hg2⟩ := Option.ne_none_iff_exists'.mp hsome
    have hdet : detectAutonomousTrigger msg ids = some
        { ctype := "debate", topic := ⟨pyStripL g2⟩,
          participants := if 2 ≤ ids.length then ids.take 2 else ids,
          maxRounds := 8, currentRound := 0 } := by
      simp only [detectAutonomousTrigger, hg2]
    refine ⟨_, hdet, rfl, rfl, by simp [if_pos hids], ?_⟩
    obtain ⟨p, hp, hpg⟩ := findSome?_eq_some_ex _ _ _ hg2
    exact ⟨p, hp, g2, hpg, rfl⟩
  · intro msg ids spec hdet htype
    simp only [detectAutonomousTrigger] at hdet
    cases hfs : debateTriggers.findSome?
        (fun p => searchPat p (pyStripL (lowerS msg))) with
    | some g =>
      rw [hfs] at hdet
      have hspec := Option.some_inj.mp hdet
      have hcty : spec.ctype = "debate" := by rw [← hspec]
      exact absurd (hcty.symm.trans htype) (by decide)
    | none =>
      rw [hfs] at hdet
      by_cases hkw : (discussionKeywords.any
          (fun k => isSubstrL k.data (pyStripL (lowerS msg)))) = true
      · rw [if_pos hkw] at hdet
        have hspec := Option.some_inj.mp hdet
        refine ⟨hkw, findSome?_eq_none_all _ _ hfs, ?_, ?_, ?_⟩ <;> rw [← hspec]
      · rw [if_neg hkw] at hdet
        exact absurd hdet (by simp)

/-- Witness for C10: `"discuss cats"` with three candidates becomes a debate
between the first two about `cats`; `"please chat a bit"` (a discussion
keyword, no debate pattern) becomes a discussion among all three. -/
theorem trigger_debate_over_discussion_witness :
    (∃ spec, detectAutonomousTrigger "discuss cats" ["a", "b", "c"] = some spec ∧
      spec.ctype = "debate" ∧ spec.maxRounds = 8 ∧
      spec.participants = ["a", "b"]) ∧
    (∀ p ∈ debateTriggers,
      searchPat p (pyStripL (lowerS "please chat a bit")) = none) := by
  constructor
  · obtain ⟨spec, hdet, hty, hmr, hpart, -⟩ :=
      trigger_debate_over_discussion.1 "discuss cats" ["a", "b", "c"]
        "cats".data (by decide) (Or.inl (by decide))
    exact ⟨spec, hdet, hty, hmr, hpart⟩
  · exact (trigger_debate_over_discussion.2 "please chat a bit" ["a", "b", "c"]
      { ctype := "discussion", topic := "please chat a bit",
        participants := ["a", "b", "c"], maxRounds := 6, currentRound := 0 }
      (by decide) rfl).2.1

/-! ### Claim C3 — relevance score formula -/

/-- A character whose personality has five words of length 4; the fourth and
fifth words distinguish a 3-word keyword cut from a 5-word one. -/
def chFiveWords : Character :=
  { name := "Zed", personality := some "aaaa bbbb cccc dddd eeee" }

/-- Counterexample to C3 as stated: the source takes the first 5 (not 3) words
of the personality description as keywords, so a message hitting the fifth
personality word scores 0.7 while the claimed formula (3 personality words)
yields 0.6. -/
theorem relevance_personality_cut_cex :
    calculateEnhancedRelevance "eeee" chFiveWords [] = (7 : ℚ) / 10 ∧
    specClaimedRelevance "eeee" chFiveWords [] = (6 : ℚ) / 10 ∧
    calculateEnhancedRelevance "eeee" chFiveWords [] ≠
      specClaimedRelevance "eeee" chFiveWords [] := by
  have h1 : relevanceMatches "eeee" chFiveWords = 1 := by decide
  have h2 : isSubstrL (lowerS chFiveWords.name) (lowerS "eeee") = false := by
    decide
  have hc : List.countP
      (fun (w : List Char) => decide (3 < w.length) && isSubstrL w (lowerS "eeee"))
      ((pyWordsL (lowerS "aaaa bbbb cccc dddd eeee")).take 3) = 0 := by decide
  have hpw : chFiveWords.powersAbilities = none := rfl
  have hpers : chFiveWords.personality = some "aaaa bbbb cccc dddd eeee" := rfl
  have hcode : calculateEnhancedRelevance "eeee" chFiveWords [] = (7 : ℚ) / 10 := by
    simp only [calculateEnhancedRelevance, h1, h2, if_false, pyLastN,
      List.drop_nil, List.any_nil, Bool.false_eq_true, Nat.cast_one]
    norm_num [min_def]
  have hspec : specClaimedRelevance "eeee" chFiveWords [] = (6 : ℚ) / 10 := by
    simp only [specClaimedRelevance, h2, hpw, hpers, if_false, pyLastN,
      List.drop_nil, List.any_nil, Bool.false_eq_true, List.nil_append, hc,
      Nat.cast_zero]
    norm_num [min_def]
  exact ⟨hcode, hspec, by rw [hcode, hspec]; norm_num⟩

/-- C3 as amended: the source's relevance score is exactly base 0.6, +0.4 for
a case-insensitive name mention, +0.2 if the character spoke among the last 3
recent messages, +0.1 per matched keyword capped at 0.3 — where the keywords
are the first 5 words of the powers/abilities description plus the first 5
(not 3) words of the personality description, filtered to length > 3 at
matching time — capped at 1.0 overall, and the result always lies in [0, 1]. -/
theorem relevance_formula_and_range (msg : String) (ch : Character)
    (recent : List RecentMsg) :
    calculateEnhancedRelevance msg ch recent =
      min ((6 : ℚ) / 10 +
        (if isSubstrL (lowerS ch.name) (lowerS msg) then (4 : ℚ) / 10 else 0) +
        (if (pyLastN 3 recent).any
            (fun m => m.role == "character" && m.characterName == some ch.name)
          then (2 : ℚ) / 10 else 0) +
        min ((relevanceMatches msg ch : ℚ) * ((1 : ℚ) / 10)) ((3 : ℚ) / 10)) 1 ∧
    0 ≤ calculateEnhancedRelevance msg ch recent ∧
    calculateEnhancedRelevance msg ch recent ≤ 1 := by
  have hform : calculateEnhancedRelevance msg ch recent =
      min ((6 : ℚ) / 10 +
        (if isSubstrL (lowerS ch.name) (lowerS msg) then (4 : ℚ) / 10 else 0) +
        (if (pyLastN 3 recent).any
            (fun m => m.role == "character" && m.characterName == some ch.name)
          then (2 : ℚ) / 10 else 0) +
        min ((relevanceMatches msg ch : ℚ) * ((1 : ℚ) / 10)) ((3 : ℚ) / 10)) 1 := by
    simp only [calculateEnhancedRelevance]
    split_ifs <;> ring_nf
  refine ⟨hform, ?_, ?_⟩
  · rw [hform]
    have hmin : (0 : ℚ) ≤ min ((relevanceMatches msg ch : ℚ) * ((1 : ℚ) / 10))
        ((3 : ℚ) / 10) := by
      apply le_min
      · positivity
      · norm_num
    apply le_min _ (by norm_num)
    split_ifs <;> linarith
  · rw [hform]
    exact min_le_right _ _

/-! ### Claim C2 — totality of responder selection -/

/-- An external opinion naming a matching character but asking for zero
responders (nothing in the source clamps `response_count`). -/
def aiZeroCount : AiAnalysis :=
  { targetType := "specific", targetCharacters := ["Alice"],
    reasoning := "r", responseCount := some 0 }

/-- Counterexample to C2 as stated: with the single candidate `a` (profile
name `Alice`), a plain message that triggers no mention/greeting/group rule,
and an external opinion targeting `Alice` with `response_count = 0`, the
selection returns the EMPTY list although the candidate list is non-empty —
the Python slice `ai_targets[:response_count]` is not clamped to 1–3. -/
theorem select_responders_empty_cex :
    selectRespondingCharacters
      (analyzeMessageIntent "zzz" ["a"] sampleDb (some aiZeroCount))
      ["a"] sampleDb = [] ∧
    (["a"] : List String) ≠ [] := by
  refine ⟨by decide, by decide⟩

/-- C2 as amended: `select_responding_characters` over the intent produced by
`analyze_message_intent` returns the empty list whenever the candidate list is
empty, and a non-empty list whenever the candidate list is non-empty — provided
the external opinion's effective `response_count` (defaulting to 2 when the
key is absent) is at least 1; with a smaller or negative count the untruncated
slice can empty the result, as the counterexample shows. -/
theorem select_responders_totality (msg : String) (ids : List String)
    (db : CharacterDB) (aiRes : Option AiAnalysis) :
    (ids = [] →
      selectRespondingCharacters (analyzeMessageIntent msg ids db aiRes)
        ids db = []) ∧
    (ids ≠ [] →
      1 ≤ ((analyzeMessageIntent msg ids db aiRes).aiAnalysis.responseCount.getD 2) →
      selectRespondingCharacters (analyzeMessageIntent msg ids db aiRes)
        ids db ≠ []) := by
  constructor
  · intro hids
    subst hids
    have hment : detectCharacterMentions msg [] db = [] := by
      simp [detectCharacterMentions]
    have htarg : ∀ tn, resolveAiTarget [] db tn = none := by
      intro tn; simp [resolveAiTarget]
    simp [selectRespondingCharacters, analyzeMessageIntent, hment, htarg,
      List.filterMap_eq_nil_iff]
  · intro hids hcount
    simp only [selectRespondingCharacters]
    split
    · next hment =>
      simpa [analyzeMessageIntent] using hment
    · split
      · exact hids
      · split
        · exact hids
        · split
          · next hai =>
            apply pyTake_ne_nil _ _ hcount
            exact hai.2
          · have htake2 : ids.take 2 ≠ [] := by
              rw [Ne, List.take_eq_nil_iff]
              push_neg
              exact ⟨by omega, hids⟩
            have htake1 : ids.take 1 ≠ [] := by
              rw [Ne, List.take_eq_nil_iff]
              push_neg
              exact ⟨by omega, hids⟩
            split
            · exact htake2
            · split
              · exact htake2
              · split
                · exact htake1
                · exact htake1

/-- Witness for the amended C2: with no external opinion the fallback carries
`response_count = 1 ≥ 1`, and the single-candidate selection is non-empty;
with no candidates the selection is empty. -/
theorem select_responders_totality_witness :
    selectRespondingCharacters (analyzeMessageIntent "zzz" ["a"] sampleDb none)
      ["a"] sampleDb ≠ [] ∧
    selectRespondingCharacters (analyzeMessageIntent "zzz" [] sampleDb none)
      [] sampleDb = [] := by
  constructor
  · exact (select_responders_totality "zzz" ["a"] sampleDb none).2
      (by decide) (by decide)
  · exact (select_responders_totality "zzz" [] sampleDb none).1 rfl

/-! ### Claim C4 — greetings select all candidates -/

/-- Counterexample to C4 as stated: the message `"hi"` matches the greeting
grammar exactly, yet with a store whose first candidate is displayed as `Hi`,
mention detection fires first (mention priority precedes the greeting rule)
and only that candidate is selected — not all candidates. -/
theorem greeting_all_candidates_cex :
    isGreetingMessage (pyStripL (lowerS "hi")) = true ∧
    selectRespondingCharacters
      (analyzeMessageIntent "hi" ["hi_guy", "bob"] dbHi none)
      ["hi_guy", "bob"] dbHi = ["hi_guy"] ∧
    (["hi_guy"] : List String) ≠ ["hi_guy", "bob"] := by
  refine ⟨by decide, by decide, by decide⟩

/-- C4 as amended: for every message matching the greeting grammar exactly,
`select_responding_characters` returns all candidates in candidate order —
provided no candidate is detected as a mention in the message (detected
mentions take priority over the greeting rule, as the counterexample shows). -/
theorem greeting_selects_all_candidates (msg : String) (ids : List String)
    (db : CharacterDB) (aiRes : Option AiAnalysis)
    (hgreet : isGreetingMessage (pyStripL (lowerS msg)) = true)
    (hment : detectCharacterMentions msg ids db = []) :
    selectRespondingCharacters (analyzeMessageIntent msg ids db aiRes)
      ids db = ids := by
  simp [selectRespondingCharacters, analyzeMessageIntent, hment, hgreet]

/-- Witness for the amended C4: `"hello everyone"` mentions nobody in the
sample store and selects both candidates. -/
theorem greeting_selects_all_candidates_witness :
    selectRespondingCharacters
      (analyzeMessageIntent "hello everyone" ["a", "b"] sampleDb none)
      ["a", "b"] sampleDb = ["a", "b"] := by
  exact greeting_selects_all_candidates "hello everyone" ["a", "b"] sampleDb
    none (by decide) (by decide)

/-! ### Claim C5 — mention priority -/

/-- C5: whenever a candidate's display name occurs (case-insensitively) in the
message, `select_responding_characters` returns exactly the list of candidates
detected as mentions — that candidate included — regardless of any other
content of the message. -/
theorem mention_priority_wins (msg : String) (ids : List String)
    (db : CharacterDB) (aiRes : Option AiAnalysis) (cid : String)
    (ch : Character) (hin : cid ∈ ids) (hdb : dbLookup db cid = some ch)
    (hsub : isSubstrL (lowerS ch.name) (lowerS msg) = true) :
    selectRespondingCharacters (analyzeMessageIntent msg ids db aiRes)
      ids db = detectCharacterMentions msg ids db ∧
    cid ∈ detectCharacterMentions msg ids db := by
  have hmem : cid ∈ detectCharacterMentions msg ids db := by
    simp only [detectCharacterMentions, List.mem_filter]
    refine ⟨hin, ?_⟩
    rw [hdb]
    simp [hsub]
  have hne : detectCharacterMentions msg ids db ≠ [] :=
    List.ne_nil_of_mem hmem
  refine ⟨?_, hmem⟩
  simp [selectRespondingCharacters, analyzeMessageIntent, hne]

/-- Witness for C5: the message `"alice, your thoughts on cats?"` contains the
display name `Alice`, so exactly the mention list `["a"]` is selected even
though the message also reads as a question. -/
theorem mention_priority_wins_witness :
    selectRespondingCharacters
      (analyzeMessageIntent "alice, your thoughts on cats?" ["a", "b"]
        sampleDb none) ["a", "b"] sampleDb =
      detectCharacterMentions "alice, your thoughts on cats?" ["a", "b"]
        sampleDb ∧
    "a" ∈ detectCharacterMentions "alice, your thoughts on cats?" ["a", "b"]
      sampleDb := by
  exact mention_priority_wins "alice, your thoughts on cats?" ["a", "b"]
    sampleDb none "a" { name := "Alice" } (by decide) (by decide) (by decide)
